import Mathlib

/-!
Verification of the outreach pipeline orchestration engine: a shallow
embedding of the lead lifecycle state machine, the idempotent stage runner,
the stage handlers (enrich, site-generate, image-assign, deploy, email,
call), the scraper lead upsert and the call-result webhook handler,
together with proofs of the specified properties.

Database rows are modelled as Lean structures, tables as lists of rows,
and each handler as a pure state-transforming function returning the new
state together with an `Except String` outcome (`.error` models a thrown
exception).  External collaborators that the handlers call through narrow
interfaces (URL resolution, HTML fetching and parsing, providers) are
modelled as oracle parameters; everything the repository itself computes
is translated directly from the source.
-/

namespace Outreach

/-- Lead lifecycle statuses, translated from the prisma `LeadStatus` enum. -/
inductive LeadStatus
  | NEW
  | SCRAPED
  | ENRICHED
  | SITE_GENERATED
  | IMAGES_READY
  | DEPLOYED
  | EMAILED_1
  | CALLED_1
  | REPLIED
  | BOOKED
  | DO_NOT_CONTACT
deriving DecidableEq, Repr

/-- Position of a status in the forward order of the state machine
(`DO_NOT_CONTACT` sits last, reachable from anywhere). -/
def statusRank : LeadStatus → Nat
  | .NEW => 0
  | .SCRAPED => 1
  | .ENRICHED => 2
  | .SITE_GENERATED => 3
  | .IMAGES_READY => 4
  | .DEPLOYED => 5
  | .EMAILED_1 => 6
  | .CALLED_1 => 7
  | .REPLIED => 8
  | .BOOKED => 9
  | .DO_NOT_CONTACT => 10

/-- Printable name of a status, used in the error message of the deployer. -/
def statusName : LeadStatus → String
  | .NEW => "NEW"
  | .SCRAPED => "SCRAPED"
  | .ENRICHED => "ENRICHED"
  | .SITE_GENERATED => "SITE_GENERATED"
  | .IMAGES_READY => "IMAGES_READY"
  | .DEPLOYED => "DEPLOYED"
  | .EMAILED_1 => "EMAILED_1"
  | .CALLED_1 => "CALLED_1"
  | .REPLIED => "REPLIED"
  | .BOOKED => "BOOKED"
  | .DO_NOT_CONTACT => "DO_NOT_CONTACT"

/-- A `Lead` row (the fields the embedded handlers read or write). -/
structure Lead where
  id : String
  campaignId : String
  businessName : Option String
  websiteUrl : Option String
  phone : Option String
  email : Option String
  address : Option String
  sourceUrl : Option String
  demoUrl : Option String
  heroImageUrl : Option String
  serviceImageUrls : List String
  status : LeadStatus
  doNotContact : Bool
  emailSentCount : Nat
  callAttempts : Nat
  lastError : Option String
deriving DecidableEq, Repr

/-- A `Campaign` row (the fields the embedded handlers read). -/
structure Campaign where
  id : String
  niche : String
  city : String
  limitCount : Nat
deriving DecidableEq, Repr

/-- Event types, translated from the prisma `EventType` enum (only the
members the embedded handlers emit). -/
inductive EventType
  | LEAD_SCRAPED
  | LEAD_ENRICHED
  | SITE_GENERATED
  | IMAGES_READY
  | DEPLOYED
  | EMAIL_SENT
  | CALL_PLACED
  | CALL_RESULT
deriving DecidableEq, Repr

/-- The JSON metadata payloads the embedded handlers attach to events,
one constructor per emit site. -/
inductive EventMeta
  | leadScraped (websiteUrl sourceUrl : Option String)
  | enrichedNoWebsite (reason : String)
      (serviceKeywords claims pagesVisited : List String)
  | enrichedData (phone email : Option String)
      (serviceKeywords claims pagesVisited : List String)
  | enrichedError (error : String)
      (serviceKeywords claims pagesVisited : List String)
  | siteGenerated (zipPath summary : String)
  | imagesReady (style heroImageUrl : String) (serviceImageUrlsCount : Nat)
  | deployed (url : String)
  | emailSent (step : Nat) (providerMessageId subject : String)
  | callPlaced (attempt : Nat) (callId callbackUrl : String)
  | callResult (provider : String) (callId : Option String)
      (status : String) (transcript : Option String) (optOut : Bool)
deriving DecidableEq, Repr

/-- An `Event` row. -/
structure Event where
  campaignId : String
  leadId : Option String
  type : EventType
  metadata : EventMeta
deriving DecidableEq, Repr

/-! ## Idempotency store and stage runner (`base-worker.ts`) -/

/-- An `IdempotencyKey` row.  `result = some v` models a row whose JSON
`result` column holds `{value: v}` (a committed result); `result = none`
models a claim row whose `result` column is still NULL. -/
structure IdemRow (α : Type) where
  key : String
  stage : String
  campaignId : String
  leadId : String
  result : Option α
deriving DecidableEq, Repr

/-- Return value of `runIdempotentStage`. -/
structure StageOutput (α : Type) where
  executed : Bool
  result : Option α
deriving DecidableEq, Repr

/-- `prisma.idempotencyKey.findUnique({where: {key}})`. -/
def findRow (store : List (IdemRow α)) (key : String) : Option (IdemRow α) :=
  store.find? (fun r => r.key == key)

/-- `prisma.idempotencyKey.update({where: {key}, data: {result: {value}}})`. -/
def commitRow (store : List (IdemRow α)) (key : String) (v : α) :
    List (IdemRow α) :=
  store.map (fun r => if r.key == key then { r with result := some v } else r)

/-- `prisma.idempotencyKey.delete({where: {key}})`. -/
def deleteRow (store : List (IdemRow α)) (key : String) : List (IdemRow α) :=
  store.filter (fun r => r.key != key)

/-- Combined result of one `runIdempotentStage` invocation: the
idempotency store and the threaded database state after the call, plus
the returned `StageOutput` (or the propagated error). -/
structure StageRun (σ α : Type) where
  store : List (IdemRow α)
  state : σ
  outcome : Except String (StageOutput α)
deriving Repr

/-- `runIdempotentStage` from `src/workers/base-worker.ts`.  The stage
body `run` acts on the database state `σ` and either returns a result or
throws; a throwing body still keeps the state changes it made before the
throw, which the pair-with-`Except` shape captures. -/
def runIdempotentStage (store : List (IdemRow α))
    (key stage campaignId leadId : String)
    (run : σ → σ × Except String α) (s : σ) : StageRun σ α :=
  match findRow store key with
  | some row =>
    match row.result with
    | some v => ⟨store, s, .ok ⟨false, some v⟩⟩
    | none => ⟨store, s, .ok ⟨false, none⟩⟩
  | none =>
    let claimed := store ++ [⟨key, stage, campaignId, leadId, none⟩]
    match run s with
    | (s1, .ok v) => ⟨commitRow claimed key v, s1, .ok ⟨true, some v⟩⟩
    | (s1, .error e) => ⟨deleteRow claimed key, s1, .error e⟩

theorem findRow_deleteRow (s : List (IdemRow α)) (k : String) :
    findRow (deleteRow s k) k = none := by
  rw [findRow, List.find?_eq_none]
  intro r hr
  have hkeep := List.of_mem_filter hr
  simpa using hkeep

theorem findRow_commitRow_append (s : List (IdemRow α)) (k : String)
    (row : IdemRow α) (v : α) (hnone : findRow s k = none) (hk : row.key = k) :
    findRow (commitRow (s ++ [row]) k v) k = some { row with result := some v } := by
  induction s with
  | nil => simp [findRow, commitRow, hk]
  | cons r t ih =>
    have hr : ¬ r.key = k := by
      intro hkey
      simp [findRow, hkey] at hnone
    have ht : findRow t k = none := by
      simpa [findRow, hr] using hnone
    have := ih ht
    simpa [findRow, commitRow, hr] using this

/-- **C1.**  `runIdempotentStage` contract: a row with a committed result
replays the cached result without running the body (the outcome does not
depend on `run` at all, and neither the store nor the database state
changes); a claim row without a result yields `{executed: false, result:
null}`, again without running the body; with no row, the body runs — on
success the result is persisted into the claim row and `{executed: true,
result}` is returned, while on failure the claim row is deleted (the key
is free again) and the error propagates. -/
theorem runIdempotentStage_spec {σ α : Type} (store : List (IdemRow α))
    (key stage campaignId leadId : String)
    (run : σ → σ × Except String α) (s : σ) :
    (∀ row, findRow store key = some row →
      runIdempotentStage store key stage campaignId leadId run s =
        ⟨store, s, .ok ⟨false, row.result⟩⟩ ∧
      (∀ run' : σ → σ × Except String α,
        runIdempotentStage store key stage campaignId leadId run' s =
          runIdempotentStage store key stage campaignId leadId run s)) ∧
    (findRow store key = none →
      (∀ v s1, run s = (s1, .ok v) →
        runIdempotentStage store key stage campaignId leadId run s =
          ⟨commitRow (store ++ [⟨key, stage, campaignId, leadId, none⟩]) key v,
            s1, .ok ⟨true, some v⟩⟩ ∧
        findRow (runIdempotentStage store key stage campaignId leadId run s).store
            key = some ⟨key, stage, campaignId, leadId, some v⟩) ∧
      (∀ e s1, run s = (s1, .error e) →
        runIdempotentStage store key stage campaignId leadId run s =
          ⟨deleteRow (store ++ [⟨key, stage, campaignId, leadId, none⟩]) key,
            s1, .error e⟩ ∧
        findRow (runIdempotentStage store key stage campaignId leadId run s).store
            key = none)) := by
  constructor
  · intro row hrow
    constructor
    · cases hres : row.result <;>
        simp [runIdempotentStage, hrow, hres]
    · intro run'
      cases hres : row.result <;>
        simp [runIdempotentStage, hrow, hres]
  · intro hnone
    constructor
    · intro v s1 hrun
      constructor
      · simp [runIdempotentStage, hnone, hrun]
      · simp only [runIdempotentStage, hnone, hrun]
        exact findRow_commitRow_append store key _ v hnone rfl
    · intro e s1 hrun
      constructor
      · simp [runIdempotentStage, hnone, hrun]
      · simp only [runIdempotentStage, hnone, hrun]
        exact findRow_deleteRow _ key

/-- Witness for `runIdempotentStage_spec` at concrete inputs: a committed
row replays `7` without touching state, and on a fresh key a successful
body persists its result. -/
theorem runIdempotentStage_spec_witness :
    (runIdempotentStage (σ := Nat) (α := Nat)
        [⟨"call:L1:attempt:1", "call", "C1", "L1", some 7⟩]
        "call:L1:attempt:1" "call" "C1" "L1" (fun n => (n + 1, .ok 9)) 0 =
      ⟨[⟨"call:L1:attempt:1", "call", "C1", "L1", some 7⟩], 0,
        .ok ⟨false, some 7⟩⟩) ∧
    (findRow (runIdempotentStage (σ := Nat) (α := Nat) []
        "call:L1:attempt:1" "call" "C1" "L1"
        (fun n => (n + 1, .ok 9)) 0).store "call:L1:attempt:1" =
      some ⟨"call:L1:attempt:1", "call", "C1", "L1", some 9⟩) := by
  constructor
  · have h := (runIdempotentStage_spec (σ := Nat) (α := Nat)
      [⟨"call:L1:attempt:1", "call", "C1", "L1", some 7⟩]
      "call:L1:attempt:1" "call" "C1" "L1" (fun n => (n + 1, .ok 9)) 0).1
      ⟨"call:L1:attempt:1", "call", "C1", "L1", some 7⟩ (by rfl)
    exact h.1
  · have h := ((runIdempotentStage_spec (σ := Nat) (α := Nat) []
      "call:L1:attempt:1" "call" "C1" "L1" (fun n => (n + 1, .ok 9)) 0).2
      (by rfl)).1 9 1 (by rfl)
    exact h.2

/-! ## Database, queue and provider state shared by the stage handlers -/

/-- Argument record of `CallProvider.placeCall` (`toAddr` embeds the
source field `to`, whose name is a reserved word in Lean). -/
structure PlaceCallInput where
  toAddr : String
  script : String
  callbackUrl : String
deriving DecidableEq, Repr

/-- Argument record of `EmailProvider.sendEmail` (`toAddr` embeds the
source field `to`). -/
structure EmailSendInput where
  toAddr : String
  subject : String
  html : String
  text : String
  headers : List (String × String)
deriving DecidableEq, Repr

/-- A job added to the `call` queue (`callQueue.add("place-call", data, {delay})`). -/
structure QueuedCall where
  leadId : String
  attempt : Nat
  delayMs : Nat
deriving DecidableEq, Repr

/-- A job added to the `email` queue. -/
structure QueuedEmail where
  leadId : String
  step : Nat
deriving DecidableEq, Repr

/-- The JSON payloads the side-effecting stages persist through the
idempotency store (`{callId}` for call, `{providerMessageId}` for email). -/
inductive Val
  | callRes (callId : String)
  | emailRes (providerMessageId : String)
deriving DecidableEq, Repr

/-- The durable state the stage bodies act on: prisma tables, provider
invocation logs (one entry per external side effect actually performed by
the fake providers) and the per-stage queues (jobs added). -/
structure Db where
  leads : List Lead
  campaigns : List Campaign
  events : List Event
  placedCalls : List PlaceCallInput
  sentEmails : List EmailSendInput
  callQueue : List QueuedCall
  emailQueue : List QueuedEmail
  siteQueue : List String
  imageQueue : List String
  deployQueue : List String
deriving DecidableEq, Repr

/-- Full system state: the database plus the idempotency store (kept
outside `Db` because the stage bodies never touch the `IdempotencyKey`
table themselves — only `runIdempotentStage` does). -/
structure Sys where
  db : Db
  idem : List (IdemRow Val)
deriving DecidableEq, Repr

/-- `prisma.lead.findUnique({where: {id}})`. -/
def findLead (leads : List Lead) (id : String) : Option Lead :=
  leads.find? (fun l => l.id == id)

/-- `prisma.lead.update({where: {id}, data})`. -/
def updateLead (leads : List Lead) (id : String) (f : Lead → Lead) :
    List Lead :=
  leads.map (fun l => if l.id == id then f l else l)

/-- `prisma.campaign.findUnique({where: {id}})`. -/
def findCampaign (cs : List Campaign) (id : String) : Option Campaign :=
  cs.find? (fun c => c.id == id)

theorem findLead_some_id {leads : List Lead} {i : String} {l : Lead}
    (h : findLead leads i = some l) : l.id = i := by
  have := List.find?_some h
  exact eq_of_beq this

theorem findLead_updateLead (leads : List Lead) (i : String) (f : Lead → Lead)
    (hid : ∀ l, (f l).id = l.id) :
    findLead (updateLead leads i f) i = (findLead leads i).map f := by
  induction leads with
  | nil => rfl
  | cons l t ih =>
    by_cases h : l.id = i
    · simp [findLead, updateLead, h, hid]
    · have hb : (l.id == i) = false := by simpa using h
      simp only [findLead, updateLead, List.map_cons, List.find?] at ih ⊢
      rw [if_neg (by simpa using h)]
      simpa [hb] using ih

/-! ## Call stage handler (`src/workers/caller.ts`, caller half) -/

/-- `buildCallScript` from `caller.ts`. -/
def buildCallScript (businessName demoUrl : String) : String :=
  "Hi, is this the owner of " ++ businessName ++
    "? I sent a quick website preview earlier. Can I resend the link? " ++ demoUrl

/-- Payload of a `call` queue job. -/
structure CallJobData where
  leadId : String
  attempt : Nat
deriving DecidableEq, Repr

/-- `processCallJob` from `caller.ts`.  The id generated by the fake call provider (`Date.now()` plus randomness in the source) is modelled by
the oracle `callIds`, indexed by the number of calls placed so far;
`callbackBase` models `process.env.CALL_WEBHOOK_BASE_URL`. -/
def processCallJob (callIds : Nat → String) (callbackBase : String)
    (job : CallJobData) (sys : Sys) : Sys × Except String Unit :=
  match findLead sys.db.leads job.leadId with
  | none => (sys, .error ("Lead not found: " ++ job.leadId))
  | some lead =>
    let campaignId := lead.campaignId
    if lead.doNotContact then (sys, .ok ()) else
    match lead.phone with
    | none => (sys, .ok ())
    | some phone =>
      if lead.callAttempts ≥ 2 then (sys, .ok ()) else
      let businessName := lead.businessName.getD "your business"
      let demoUrl := lead.demoUrl.getD "the preview link"
      let callbackUrl := callbackBase ++ "/webhooks/calls/fake"
      let script := buildCallScript businessName demoUrl
      let idemKey := "call:" ++ lead.id ++ ":attempt:" ++ toString job.attempt
      let run : Db → Db × Except String Val := fun db =>
        let callId := callIds db.placedCalls.length
        let db1 := { db with
          placedCalls := db.placedCalls ++ [PlaceCallInput.mk phone script callbackUrl] }
        let db2 := { db1 with
          leads := updateLead db1.leads lead.id (fun l =>
            { l with callAttempts := l.callAttempts + 1,
                     status := .CALLED_1, lastError := none }) }
        let db3 := { db2 with
          events := db2.events ++ [Event.mk campaignId (some lead.id)
            .CALL_PLACED (.callPlaced job.attempt callId callbackUrl)] }
        (db3, .ok (.callRes callId))
      let sr := runIdempotentStage sys.idem idemKey "call" campaignId lead.id
        run sys.db
      match sr.outcome with
      | .error e => (⟨sr.state, sr.store⟩, .error e)
      | .ok _ => (⟨sr.state, sr.store⟩, .ok ())

/-! ## Email stage handler (`src/workers/caller.ts`, emailer half) -/

/-- `followUpCallDelayMs` from the emailer: `30 * 60 * 1000`. -/
def followUpCallDelayMs : Nat := 30 * 60 * 1000

/-- `buildSubject` from the emailer. -/
def buildSubject (businessName : String) (step : Nat) : String :=
  if step == 1 then "Built this for " ++ businessName
  else "Quick follow-up: website preview"

/-- `buildBody` from the emailer, returning `(html, text)`. -/
def buildBody (businessName demoUrl : String) (step : Nat) : String × String :=
  if step == 1 then
    ("<p>Hi " ++ businessName ++
       ",</p><p>I built a quick website preview for your business:</p><p><a href=\"" ++
       demoUrl ++ "\">" ++ demoUrl ++
       "</a></p><p>If useful, I can customize it further.</p>",
     "Hi " ++ businessName ++
       ",\n\nI built a quick website preview for your business:\n" ++
       demoUrl ++ "\n\nIf useful, I can customize it further.")
  else
    ("<p>Quick follow-up for " ++ businessName ++
       ".</p><p>Your website preview is still live here:</p><p><a href=\"" ++
       demoUrl ++ "\">" ++ demoUrl ++ "</a></p>",
     "Quick follow-up for " ++ businessName ++
       ".\n\nYour website preview is still live here:\n" ++ demoUrl)

/-- Payload of an `email` queue job. -/
structure EmailJobData where
  leadId : String
  step : Nat
deriving DecidableEq, Repr

/-- `processEmailJob` from `caller.ts`.  The message id generated by the fake email provider is modelled by the oracle `messageIds`, indexed by the number
of emails sent so far. -/
def processEmailJob (messageIds : Nat → String) (job : EmailJobData)
    (sys : Sys) : Sys × Except String Unit :=
  match findLead sys.db.leads job.leadId with
  | none => (sys, .error ("Lead not found: " ++ job.leadId))
  | some lead =>
    let campaignId := lead.campaignId
    if lead.doNotContact then (sys, .ok ()) else
    match lead.email with
    | none => (sys, .ok ())
    | some emailAddr =>
      match lead.demoUrl with
      | none => (sys, .error ("Lead " ++ lead.id ++ " missing demoUrl; cannot email"))
      | some demoUrl =>
        if lead.emailSentCount ≥ job.step then (sys, .ok ()) else
        let businessName := lead.businessName.getD "there"
        let subject := buildSubject businessName job.step
        let body := buildBody businessName demoUrl job.step
        let idemKey := "email:" ++ lead.id ++ ":step:" ++ toString job.step
        let run : Db → Db × Except String Val := fun db =>
          let messageId := messageIds db.sentEmails.length
          let db1 := { db with
            sentEmails := db.sentEmails ++ [EmailSendInput.mk emailAddr subject
              body.1 body.2
              [("x-campaign-id", campaignId), ("x-lead-id", lead.id),
               ("x-email-step", toString job.step)]] }
          let db2 := { db1 with
            leads := updateLead db1.leads lead.id (fun l =>
              { l with emailSentCount := l.emailSentCount + 1,
                       status := .EMAILED_1, lastError := none }) }
          let db3 := { db2 with
            events := db2.events ++ [Event.mk campaignId (some lead.id)
              .EMAIL_SENT (.emailSent job.step messageId subject)] }
          let db4 := { db3 with
            callQueue := db3.callQueue ++ [QueuedCall.mk lead.id 1 followUpCallDelayMs] }
          (db4, .ok (.emailRes messageId))
        let sr := runIdempotentStage sys.idem idemKey "email" campaignId lead.id
          run sys.db
        match sr.outcome with
        | .error e => (⟨sr.state, sr.store⟩, .error e)
        | .ok _ => (⟨sr.state, sr.store⟩, .ok ())

/-! ## Sample data used by witnesses -/

/-- An empty database. -/
def emptyDb : Db := ⟨[], [], [], [], [], [], [], [], [], []⟩

/-- A fully populated sample lead. -/
def sampleLead : Lead :=
  { id := "L1", campaignId := "C1", businessName := some "Acme Roofing",
    websiteUrl := some "https://acme-roofing.example.org",
    phone := some "+1-555-0101", email := some "hello@acme-roofing.example.org",
    address := some "100 Main St", sourceUrl := some "https://listings.example.org/1",
    demoUrl := some "http://localhost:3000/demo/l1", heroImageUrl := none,
    serviceImageUrls := [], status := .DEPLOYED, doNotContact := false,
    emailSentCount := 0, callAttempts := 0, lastError := none }

/-- A system whose only lead has opted out. -/
def sysDnc : Sys :=
  ⟨{ emptyDb with leads := [{ sampleLead with doNotContact := true }] }, []⟩

/-- A system whose only lead is deployed and contactable. -/
def sysFresh : Sys := ⟨{ emptyDb with leads := [sampleLead] }, []⟩

/-- **C5.**  For a lead with `doNotContact = true`, the Email and Call
stage handlers return immediately with job success: the returned system
state is exactly the input state, so no provider call is logged, no
event is written and no lead is modified, and the outcome is `.ok` (a
skip), not an error. -/
theorem doNotContact_skips_contact_stages
    (callIds messageIds : Nat → String) (callbackBase : String) (sys : Sys)
    (cjob : CallJobData) (ejob : EmailJobData) (lc le : Lead)
    (hc : findLead sys.db.leads cjob.leadId = some lc)
    (hcdnc : lc.doNotContact = true)
    (he : findLead sys.db.leads ejob.leadId = some le)
    (hednc : le.doNotContact = true) :
    processCallJob callIds callbackBase cjob sys = (sys, .ok ()) ∧
    processEmailJob messageIds ejob sys = (sys, .ok ()) := by
  constructor
  · simp [processCallJob, hc, hcdnc]
  · simp [processEmailJob, he, hednc]

/-- Witness for `doNotContact_skips_contact_stages` on a concrete
opted-out lead. -/
theorem doNotContact_skips_contact_stages_witness :
    processCallJob (fun _ => "call-0") "http://localhost:3000" ⟨"L1", 1⟩ sysDnc
      = (sysDnc, .ok ()) ∧
    processEmailJob (fun _ => "msg-0") ⟨"L1", 1⟩ sysDnc = (sysDnc, .ok ()) :=
  doNotContact_skips_contact_stages (fun _ => "call-0") (fun _ => "msg-0")
    "http://localhost:3000" sysDnc ⟨"L1", 1⟩ ⟨"L1", 1⟩
    { sampleLead with doNotContact := true }
    { sampleLead with doNotContact := true }
    (by rfl) (by rfl) (by rfl) (by rfl)

/-- The full effect of a first, executing run of `processEmailJob`:
provider invoked once, lead counters and status updated, `EMAIL_SENT`
event appended, follow-up call queued, result committed under the key. -/
theorem processEmailJob_first (messageIds : Nat → String) (job : EmailJobData)
    (sys : Sys) (lead : Lead) (emailAddr demoUrl : String)
    (hfind : findLead sys.db.leads job.leadId = some lead)
    (hdnc : lead.doNotContact = false)
    (hemail : lead.email = some emailAddr)
    (hdemo : lead.demoUrl = some demoUrl)
    (hcount : lead.emailSentCount < job.step)
    (hfresh : findRow sys.idem
      ("email:" ++ lead.id ++ ":step:" ++ toString job.step) = none) :
    processEmailJob messageIds job sys =
      (⟨{ sys.db with
            sentEmails := sys.db.sentEmails ++ [EmailSendInput.mk emailAddr
              (buildSubject (lead.businessName.getD "there") job.step)
              (buildBody (lead.businessName.getD "there") demoUrl job.step).1
              (buildBody (lead.businessName.getD "there") demoUrl job.step).2
              [("x-campaign-id", lead.campaignId), ("x-lead-id", lead.id),
               ("x-email-step", toString job.step)]],
            leads := updateLead sys.db.leads lead.id (fun l =>
              { l with emailSentCount := l.emailSentCount + 1,
                       status := .EMAILED_1, lastError := none }),
            events := sys.db.events ++ [Event.mk lead.campaignId (some lead.id)
              .EMAIL_SENT (.emailSent job.step
                (messageIds sys.db.sentEmails.length)
                (buildSubject (lead.businessName.getD "there") job.step))],
            callQueue := sys.db.callQueue ++
              [QueuedCall.mk lead.id 1 followUpCallDelayMs] },
        commitRow (sys.idem ++ [⟨"email:" ++ lead.id ++ ":step:" ++
            toString job.step, "email", lead.campaignId, lead.id, none⟩])
          ("email:" ++ lead.id ++ ":step:" ++ toString job.step)
          (.emailRes (messageIds sys.db.sentEmails.length))⟩,
       .ok ()) := by
  simp only [processEmailJob, hfind, hdnc, hemail, hdemo, Bool.false_eq_true,
    if_false, if_neg (Nat.not_le.mpr hcount), runIdempotentStage, hfresh]

/-- The full effect of a first, executing run of `processCallJob`:
provider invoked once, attempt counter and status updated, `CALL_PLACED`
event appended, result committed under the key. -/
theorem processCallJob_first (callIds : Nat → String) (callbackBase : String)
    (job : CallJobData) (sys : Sys) (lead : Lead) (phone : String)
    (hfind : findLead sys.db.leads job.leadId = some lead)
    (hdnc : lead.doNotContact = false)
    (hphone : lead.phone = some phone)
    (hatt : lead.callAttempts < 2)
    (hfresh : findRow sys.idem
      ("call:" ++ lead.id ++ ":attempt:" ++ toString job.attempt) = none) :
    processCallJob callIds callbackBase job sys =
      (⟨{ sys.db with
            placedCalls := sys.db.placedCalls ++ [PlaceCallInput.mk phone
              (buildCallScript (lead.businessName.getD "your business")
                (lead.demoUrl.getD "the preview link"))
              (callbackBase ++ "/webhooks/calls/fake")],
            leads := updateLead sys.db.leads lead.id (fun l =>
              { l with callAttempts := l.callAttempts + 1,
                       status := .CALLED_1, lastError := none }),
            events := sys.db.events ++ [Event.mk lead.campaignId (some lead.id)
              .CALL_PLACED (.callPlaced job.attempt
                (callIds sys.db.placedCalls.length)
                (callbackBase ++ "/webhooks/calls/fake"))] },
        commitRow (sys.idem ++ [⟨"call:" ++ lead.id ++ ":attempt:" ++
            toString job.attempt, "call", lead.campaignId, lead.id, none⟩])
          ("call:" ++ lead.id ++ ":attempt:" ++ toString job.attempt)
          (.callRes (callIds sys.db.placedCalls.length))⟩,
       .ok ()) := by
  simp only [processCallJob, hfind, hdnc, hphone, Bool.false_eq_true,
    if_false, if_neg (Nat.not_le.mpr hatt), runIdempotentStage, hfresh]

/-- A call invocation that reaches the idempotency store and finds a
committed row replays it: no state change, job success. -/
theorem processCallJob_cached (callIds : Nat → String) (callbackBase : String)
    (job : CallJobData) (sys : Sys) (lead : Lead) (phone : String)
    (row : IdemRow Val) (v : Val)
    (hfind : findLead sys.db.leads job.leadId = some lead)
    (hdnc : lead.doNotContact = false)
    (hphone : lead.phone = some phone)
    (hatt : lead.callAttempts < 2)
    (hhit : findRow sys.idem
      ("call:" ++ lead.id ++ ":attempt:" ++ toString job.attempt) = some row)
    (hres : row.result = some v) :
    processCallJob callIds callbackBase job sys = (sys, .ok ()) := by
  simp only [processCallJob, hfind, hdnc, hphone, Bool.false_eq_true,
    if_false, if_neg (Nat.not_le.mpr hatt), runIdempotentStage, hhit, hres]

/-- An email invocation that reaches the idempotency store and finds a
committed row replays it: no state change, job success. -/
theorem processEmailJob_cached (messageIds : Nat → String)
    (job : EmailJobData) (sys : Sys) (lead : Lead)
    (emailAddr demoUrl : String) (row : IdemRow Val) (v : Val)
    (hfind : findLead sys.db.leads job.leadId = some lead)
    (hdnc : lead.doNotContact = false)
    (hemail : lead.email = some emailAddr)
    (hdemo : lead.demoUrl = some demoUrl)
    (hcount : lead.emailSentCount < job.step)
    (hhit : findRow sys.idem
      ("email:" ++ lead.id ++ ":step:" ++ toString job.step) = some row)
    (hres : row.result = some v) :
    processEmailJob messageIds job sys = (sys, .ok ()) := by
  simp only [processEmailJob, hfind, hdnc, hemail, hdemo, Bool.false_eq_true,
    if_false, if_neg (Nat.not_le.mpr hcount), runIdempotentStage, hhit, hres]

/-- An email invocation whose lead has already been sent this step
(`emailSentCount >= step`) skips before reaching the idempotency store. -/
theorem processEmailJob_alreadySent (messageIds : Nat → String)
    (job : EmailJobData) (sys : Sys) (lead : Lead)
    (emailAddr demoUrl : String)
    (hfind : findLead sys.db.leads job.leadId = some lead)
    (hdnc : lead.doNotContact = false)
    (hemail : lead.email = some emailAddr)
    (hdemo : lead.demoUrl = some demoUrl)
    (hcount : job.step ≤ lead.emailSentCount) :
    processEmailJob messageIds job sys = (sys, .ok ()) := by
  simp only [processEmailJob, hfind, hdnc, hemail, hdemo, Bool.false_eq_true,
    if_false, if_pos hcount]

/-- **C2.**  Invoking a side-effecting stage handler twice with the same
dedup key and the same lead state produces exactly one external provider
action, and the second pass through `runIdempotentStage` replays the
cached result of the first execution with `executed = false`.  For Call the
second (sequential redelivery) invocation is a strict no-op on the
system; for Email the second invocation on the same lead state is a
strict no-op as well; and in both cases the committed idempotency row
makes any further `runIdempotentStage` call on that key return
`{executed: false, result: cached}` without running its body. -/
theorem contact_stage_idempotent (callIds messageIds : Nat → String)
    (callbackBase : String) (sysC sysE : Sys)
    (cjob : CallJobData) (ejob : EmailJobData) (lc le : Lead)
    (phone emailAddr demoUrl : String)
    (hcf : findLead sysC.db.leads cjob.leadId = some lc)
    (hcd : lc.doNotContact = false)
    (hcp : lc.phone = some phone)
    (hca : lc.callAttempts = 0)
    (hcfresh : findRow sysC.idem
      ("call:" ++ lc.id ++ ":attempt:" ++ toString cjob.attempt) = none)
    (hef : findLead sysE.db.leads ejob.leadId = some le)
    (hed : le.doNotContact = false)
    (hee : le.email = some emailAddr)
    (hedm : le.demoUrl = some demoUrl)
    (hec : le.emailSentCount < ejob.step)
    (hefresh : findRow sysE.idem
      ("email:" ++ le.id ++ ":step:" ++ toString ejob.step) = none) :
    ((processCallJob callIds callbackBase cjob sysC).2 = .ok () ∧
     (processCallJob callIds callbackBase cjob sysC).1.db.placedCalls =
       sysC.db.placedCalls ++ [PlaceCallInput.mk phone
         (buildCallScript (lc.businessName.getD "your business")
           (lc.demoUrl.getD "the preview link"))
         (callbackBase ++ "/webhooks/calls/fake")] ∧
     processCallJob callIds callbackBase cjob
         (processCallJob callIds callbackBase cjob sysC).1 =
       ((processCallJob callIds callbackBase cjob sysC).1, .ok ()) ∧
     (∀ (run : Db → Db × Except String Val) (s : Db),
       (runIdempotentStage (processCallJob callIds callbackBase cjob sysC).1.idem
         ("call:" ++ lc.id ++ ":attempt:" ++ toString cjob.attempt) "call"
         lc.campaignId lc.id run s).outcome =
       .ok ⟨false, some (.callRes (callIds sysC.db.placedCalls.length))⟩)) ∧
    ((processEmailJob messageIds ejob sysE).2 = .ok () ∧
     (processEmailJob messageIds ejob sysE).1.db.sentEmails =
       sysE.db.sentEmails ++ [EmailSendInput.mk emailAddr
         (buildSubject (le.businessName.getD "there") ejob.step)
         (buildBody (le.businessName.getD "there") demoUrl ejob.step).1
         (buildBody (le.businessName.getD "there") demoUrl ejob.step).2
         [("x-campaign-id", le.campaignId), ("x-lead-id", le.id),
          ("x-email-step", toString ejob.step)]] ∧
     processEmailJob messageIds ejob
         ⟨{ (processEmailJob messageIds ejob sysE).1.db with
              leads := sysE.db.leads },
          (processEmailJob messageIds ejob sysE).1.idem⟩ =
       (⟨{ (processEmailJob messageIds ejob sysE).1.db with
             leads := sysE.db.leads },
         (processEmailJob messageIds ejob sysE).1.idem⟩, .ok ()) ∧
     (∀ (run : Db → Db × Except String Val) (s : Db),
       (runIdempotentStage (processEmailJob messageIds ejob sysE).1.idem
         ("email:" ++ le.id ++ ":step:" ++ toString ejob.step) "email"
         le.campaignId le.id run s).outcome =
       .ok ⟨false, some (.emailRes (messageIds sysE.db.sentEmails.length))⟩)) := by
  have hatt2 : lc.callAttempts < 2 := by omega
  have hcEq := processCallJob_first callIds callbackBase cjob sysC lc phone
    hcf hcd hcp hatt2 hcfresh
  have hcid : lc.id = cjob.leadId := findLead_some_id hcf
  have hcRow := findRow_commitRow_append sysC.idem
    ("call:" ++ lc.id ++ ":attempt:" ++ toString cjob.attempt)
    ⟨"call:" ++ lc.id ++ ":attempt:" ++ toString cjob.attempt, "call",
      lc.campaignId, lc.id, none⟩
    (Val.callRes (callIds sysC.db.placedCalls.length)) hcfresh rfl
  have heEq := processEmailJob_first messageIds ejob sysE le emailAddr demoUrl
    hef hed hee hedm hec hefresh
  have heid : le.id = ejob.leadId := findLead_some_id hef
  have heRow := findRow_commitRow_append sysE.idem
    ("email:" ++ le.id ++ ":step:" ++ toString ejob.step)
    ⟨"email:" ++ le.id ++ ":step:" ++ toString ejob.step, "email",
      le.campaignId, le.id, none⟩
    (Val.emailRes (messageIds sysE.db.sentEmails.length)) hefresh rfl
  refine ⟨⟨?_, ?_, ?_, ?_⟩, ⟨?_, ?_, ?_, ?_⟩⟩
  · rw [hcEq]
  · rw [hcEq]
  · rw [hcEq]
    have hfind2 : findLead (updateLead sysC.db.leads lc.id (fun l =>
        { l with callAttempts := l.callAttempts + 1,
                 status := .CALLED_1, lastError := none })) cjob.leadId =
        some { lc with
          callAttempts := lc.callAttempts + 1,
          status := .CALLED_1,
          lastError := none } := by
      rw [← hcid, findLead_updateLead sysC.db.leads lc.id
        (fun l => { l with
          callAttempts := l.callAttempts + 1,
          status := .CALLED_1,
          lastError := none }) (fun l => rfl), hcid, hcf]
      simp [hcid]
    exact processCallJob_cached callIds callbackBase cjob _
      { lc with
        callAttempts := lc.callAttempts + 1,
        status := .CALLED_1,
        lastError := none } phone
      ⟨"call:" ++ lc.id ++ ":attempt:" ++ toString cjob.attempt, "call",
        lc.campaignId, lc.id,
        some (.callRes (callIds sysC.db.placedCalls.length))⟩
      (.callRes (callIds sysC.db.placedCalls.length))
      hfind2 hcd hcp (by simp [hca]) (by simpa using hcRow) rfl
  · intro run s
    rw [hcEq]
    simp only [runIdempotentStage, hcRow]
  · rw [heEq]
  · rw [heEq]
  · rw [heEq]
    exact processEmailJob_cached messageIds ejob _ le emailAddr demoUrl
      ⟨"email:" ++ le.id ++ ":step:" ++ toString ejob.step, "email",
        le.campaignId, le.id,
        some (.emailRes (messageIds sysE.db.sentEmails.length))⟩
      (.emailRes (messageIds sysE.db.sentEmails.length))
      hef hed hee hedm hec (by simpa using heRow) rfl
  · intro run s
    rw [heEq]
    simp only [runIdempotentStage, heRow]

/-- Witness for `contact_stage_idempotent` on a concrete fresh system. -/
theorem contact_stage_idempotent_witness :
    (processCallJob (fun n => "call-" ++ toString n) "http://localhost:3000"
      ⟨"L1", 1⟩ sysFresh).2 = .ok () ∧
    (processEmailJob (fun n => "msg-" ++ toString n) ⟨"L1", 1⟩ sysFresh).2 =
      .ok () := by
  have h := contact_stage_idempotent (fun n => "call-" ++ toString n)
    (fun n => "msg-" ++ toString n) "http://localhost:3000" sysFresh sysFresh
    ⟨"L1", 1⟩ ⟨"L1", 1⟩ sampleLead sampleLead "+1-555-0101"
    "hello@acme-roofing.example.org" "http://localhost:3000/demo/l1"
    rfl rfl rfl rfl rfl rfl rfl rfl rfl (by decide) rfl
  exact ⟨h.1.1, h.2.1⟩

/-- **C8.**  A successful Email step-1 run enqueues exactly one Call job
with `attempt = 1` at the fixed 30-minute delay (1800000 ms), increments
`emailSentCount` to 1, and a redelivery of the same job is a strict
no-op (the handler skips on `emailSentCount >= step`), so the counter
stays at 1. -/
theorem email_step1_followup_and_single_increment (messageIds : Nat → String)
    (job : EmailJobData) (sys : Sys) (lead : Lead) (emailAddr demoUrl : String)
    (hfind : findLead sys.db.leads job.leadId = some lead)
    (hdnc : lead.doNotContact = false)
    (hemail : lead.email = some emailAddr)
    (hdemo : lead.demoUrl = some demoUrl)
    (hstep : job.step = 1)
    (hcount : lead.emailSentCount = 0)
    (hfresh : findRow sys.idem
      ("email:" ++ lead.id ++ ":step:" ++ toString job.step) = none) :
    (processEmailJob messageIds job sys).2 = .ok () ∧
    (processEmailJob messageIds job sys).1.db.callQueue =
      sys.db.callQueue ++ [QueuedCall.mk lead.id 1 1800000] ∧
    findLead (processEmailJob messageIds job sys).1.db.leads job.leadId =
      some { lead with
        emailSentCount := 1, status := .EMAILED_1, lastError := none } ∧
    processEmailJob messageIds job (processEmailJob messageIds job sys).1 =
      ((processEmailJob messageIds job sys).1, .ok ()) := by
  have hlt : lead.emailSentCount < job.step := by omega
  have hEq := processEmailJob_first messageIds job sys lead emailAddr demoUrl
    hfind hdnc hemail hdemo hlt hfresh
  have hid : lead.id = job.leadId := findLead_some_id hfind
  have hfind2 : findLead (updateLead sys.db.leads lead.id (fun l =>
      { l with
        emailSentCount := l.emailSentCount + 1,
        status := .EMAILED_1,
        lastError := none })) job.leadId =
      some { lead with
        emailSentCount := lead.emailSentCount + 1,
        status := .EMAILED_1,
        lastError := none } := by
    rw [← hid, findLead_updateLead sys.db.leads lead.id
      (fun l => { l with
        emailSentCount := l.emailSentCount + 1,
        status := .EMAILED_1,
        lastError := none }) (fun l => rfl), hid, hfind]
    simp [hid]
  refine ⟨?_, ?_, ?_, ?_⟩
  · rw [hEq]
  · rw [hEq]
    simp [followUpCallDelayMs]
  · rw [hEq]
    rw [hfind2]
    simp [hcount]
  · rw [hEq]
    exact processEmailJob_alreadySent messageIds job _
      { lead with
        emailSentCount := lead.emailSentCount + 1,
        status := .EMAILED_1,
        lastError := none } emailAddr demoUrl hfind2 hdnc hemail hdemo
      (show job.step ≤ lead.emailSentCount + 1 by omega)

/-- Witness for `email_step1_followup_and_single_increment` on a
concrete fresh system. -/
theorem email_step1_followup_and_single_increment_witness :
    (processEmailJob (fun n => "msg-" ++ toString n) ⟨"L1", 1⟩ sysFresh).1.db.callQueue
      = [QueuedCall.mk "L1" 1 1800000] := by
  have h := email_step1_followup_and_single_increment
    (fun n => "msg-" ++ toString n) ⟨"L1", 1⟩ sysFresh sampleLead
    "hello@acme-roofing.example.org" "http://localhost:3000/demo/l1"
    rfl rfl rfl rfl rfl rfl rfl
  exact h.2.1

/-! ## Call-result webhook handler (`webhooks-handler.ts`) -/

/-- `transcript.toLowerCase()`, modelled character-wise. -/
def lowerStr (s : String) : String := String.mk (s.data.map Char.toLower)

/-- Substring containment over character lists (`text.includes(phrase)`). -/
def containsSub (hay pat : List Char) : Bool :=
  match hay with
  | [] => pat.isEmpty
  | _ :: t => pat.isPrefixOf hay || containsSub t pat

/-- `text.includes(phrase)` on strings. -/
def includesStr (s pat : String) : Bool := containsSub s.data pat.data

theorem isPrefixOf_iff_append (pat hay : List Char) :
    pat.isPrefixOf hay = true ↔ ∃ post, hay = pat ++ post := by
  induction pat generalizing hay with
  | nil => simp [List.isPrefixOf]
  | cons p ps ih =>
    cases hay with
    | nil => simp [List.isPrefixOf]
    | cons h hs =>
      simp only [List.isPrefixOf, Bool.and_eq_true, beq_iff_eq, ih,
        List.cons_append, List.cons.injEq]
      constructor
      · rintro ⟨hp, post, hpost⟩
        exact ⟨post, hp.symm, hpost⟩
      · rintro ⟨post, hp, hpost⟩
        exact ⟨hp.symm, post, hpost⟩

theorem containsSub_iff_append (hay pat : List Char) :
    containsSub hay pat = true ↔ ∃ pre post, hay = pre ++ pat ++ post := by
  induction hay with
  | nil =>
    simp only [containsSub, List.isEmpty_iff]
    constructor
    · intro h
      exact ⟨[], [], by simp [h]⟩
    · rintro ⟨pre, post, h⟩
      rcases List.append_eq_nil.mp (List.append_eq_nil.mp h.symm).1 with ⟨-, h2⟩
      exact h2
  | cons c t ih =>
    simp only [containsSub, Bool.or_eq_true, isPrefixOf_iff_append, ih]
    constructor
    · rintro (⟨post, hpost⟩ | ⟨pre, post, hsplit⟩)
      · exact ⟨[], post, by simpa using hpost⟩
      · exact ⟨c :: pre, post, by simp [hsplit]⟩
    · rintro ⟨pre, post, hsplit⟩
      cases pre with
      | nil => exact .inl ⟨post, by simpa using hsplit⟩
      | cons p pre2 =>
        right
        refine ⟨pre2, post, ?_⟩
        have := hsplit
        simp only [List.cons_append, List.cons.injEq] at this
        exact this.2

/-- `hasOptOutIntent` from the webhook handler: case-insensitive
substring match against the phrase list of the handler (six phrases, written
here exactly as in the source; `\x27` is the apostrophe). -/
def hasOptOutIntent (transcript : String) : Bool :=
  let text := lowerStr transcript
  ["do not call", "don\x27t call", "stop calling", "remove me", "opt out",
    "unsubscribe"].any (fun phrase => includesStr text phrase)

/-- Modelled from the spec: the five opt-out phrases the specification
sentence lists (the source function `hasOptOutIntent` is compared against this
list). -/
def specOptOutPhrases : List String :=
  ["do not call", "stop calling", "remove me", "opt out", "unsubscribe"]

/-- Parsed webhook payload (the output of the zod schema; a malformed body is
rejected with 400 before this record exists and is not modelled). -/
structure WebhookPayload where
  leadId : Option String
  campaignId : Option String
  callId : Option String
  status : String
  transcript : Option String
deriving DecidableEq, Repr

/-- The HTTP response of the handler, one constructor per response call site. -/
inductive WebhookResponse
  | badRequest (error : String)
  | notFound (error : String)
  | success (provider : String) (optOutApplied : Bool)
deriving DecidableEq, Repr

/-- `callWebhookHandler` from `webhooks-handler.ts`: resolves the
campaign from the lead when a `leadId` is given, records a CALL_RESULT
event, and applies the opt-out to the lead when both a lead and an
opt-out intent are present. -/
def callWebhookHandler (provider : String) (payload : WebhookPayload)
    (db : Db) : Db × WebhookResponse :=
  let resolved : Except WebhookResponse (Option String × Option String) :=
    match payload.leadId with
    | some lid =>
      match findLead db.leads lid with
      | none => .error (.notFound "Lead not found")
      | some l => .ok (some l.id, some l.campaignId)
    | none => .ok (none, payload.campaignId)
  match resolved with
  | .error resp => (db, resp)
  | .ok (leadId, campaignIdOpt) =>
    match campaignIdOpt with
    | none =>
      (db, .badRequest "campaignId is required when leadId is not provided")
    | some campaignId =>
      let transcript := payload.transcript.getD ""
      let optOut :=
        if transcript.length > 0 then hasOptOutIntent transcript else false
      let db1 := { db with
        events := db.events ++ [Event.mk campaignId leadId .CALL_RESULT
          (.callResult provider payload.callId payload.status
            (if transcript == "" then none else some transcript) optOut)] }
      let db2 :=
        match leadId with
        | some lid =>
          if optOut then
            { db1 with leads := updateLead db1.leads lid (fun x =>
              { x with doNotContact := true, status := .DO_NOT_CONTACT }) }
          else db1
        | none => db1
      (db2, .success provider (leadId.isSome && optOut))

/-- **C7 (counterexample).**  The transcript "Sorry, don\x27t call me
again" triggers the opt-out matcher of the source (it contains the sixth
phrase, "don\x27t call") but contains none of the five phrases the claim
lists, so the claimed "exactly five phrases" if-and-only-if fails. -/
theorem optOut_five_phrases_counterexample :
    hasOptOutIntent "Sorry, don\x27t call me again" = true ∧
    (specOptOutPhrases.any (fun p =>
      includesStr (lowerStr "Sorry, don\x27t call me again") p)) = false := by
  decide

/-- **C7 (amended).**  The webhook detects opt-out intent in a non-empty
transcript if and only if the transcript contains, as a case-insensitive
substring, one of the six phrases of the handler — the five the spec lists
plus "don\x27t call" — and on a match with a resolved lead it records a
CALL_RESULT event with `optOut = true` and, on the lead, sets the
`doNotContact` flag and DO_NOT_CONTACT status. -/
theorem optOut_detection_and_application (t provider : String)
    (payload : WebhookPayload) (db : Db) (lid : String) (l : Lead)
    (hlid : payload.leadId = some lid)
    (hlead : findLead db.leads lid = some l)
    (htr : payload.transcript = some t)
    (hlen : 0 < t.length) :
    (hasOptOutIntent t = true ↔
      ∃ p ∈ ["do not call", "don\x27t call", "stop calling", "remove me",
        "opt out", "unsubscribe"],
        ∃ pre post : List Char, (lowerStr t).data = pre ++ p.data ++ post) ∧
    (hasOptOutIntent t = true →
      callWebhookHandler provider payload db =
        ({ db with
            events := db.events ++ [Event.mk l.campaignId (some l.id)
              .CALL_RESULT (.callResult provider payload.callId
                payload.status (some t) true)],
            leads := updateLead db.leads l.id (fun x =>
              { x with doNotContact := true, status := .DO_NOT_CONTACT }) },
         .success provider true)) := by
  have hne : t ≠ "" := by
    intro h
    rw [h] at hlen
    exact absurd hlen (by decide)
  have hbeq : (t == "") = false := beq_eq_false_iff_ne.mpr hne
  constructor
  · simp only [hasOptOutIntent, includesStr, List.any_eq_true,
      containsSub_iff_append]
  · intro hmatch
    simp only [callWebhookHandler, hlid, hlead, htr, Option.getD_some,
      if_pos hlen, hmatch, hbeq, Bool.false_eq_true, if_false, if_true,
      Option.isSome_some, Bool.and_true, Bool.and_self]

/-- Witness for `optOut_detection_and_application`: the transcript
"please remove me from your list" matches and flips the concrete lead to
DO_NOT_CONTACT. -/
theorem optOut_detection_and_application_witness :
    callWebhookHandler "fake"
      ⟨some "L1", none, some "call-1", "answered",
        some "please remove me from your list"⟩ sysFresh.db =
      ({ sysFresh.db with
          events := [Event.mk "C1" (some "L1") .CALL_RESULT
            (.callResult "fake" (some "call-1") "answered"
              (some "please remove me from your list") true)],
          leads := [{ sampleLead with
            doNotContact := true, status := .DO_NOT_CONTACT }] },
       .success "fake" true) := by
  have h := (optOut_detection_and_application
    "please remove me from your list" "fake"
    ⟨some "L1", none, some "call-1", "answered",
      some "please remove me from your list"⟩ sysFresh.db "L1" sampleLead
    rfl rfl rfl (by decide)).2 (by decide)
  rw [h]
  rfl

/-- **C10.**  With a `campaignId` but no `leadId`, the webhook records a
CALL_RESULT event under that campaign (opt-out computed from the
transcript) and responds `optOutApplied: false`, leaving every Lead row
untouched even when the transcript contains an opt-out phrase; and when
a `leadId` resolves to a lead, the event is recorded under the
`campaignId` of that lead — any `campaignId` supplied in the payload is
irrelevant to the result of the handler. -/
theorem callWebhook_campaign_resolution (provider : String)
    (payload : WebhookPayload) (db : Db) :
    (∀ c, payload.leadId = none → payload.campaignId = some c →
      callWebhookHandler provider payload db =
        ({ db with
            events := db.events ++ [Event.mk c none .CALL_RESULT
              (.callResult provider payload.callId payload.status
                (if (payload.transcript.getD "") == "" then none
                 else some (payload.transcript.getD ""))
                (if (payload.transcript.getD "").length > 0
                 then hasOptOutIntent (payload.transcript.getD "")
                 else false))] },
         .success provider false) ∧
      (callWebhookHandler provider payload db).1.leads = db.leads) ∧
    (∀ lid l, payload.leadId = some lid → findLead db.leads lid = some l →
      (∀ x, callWebhookHandler provider { payload with campaignId := x } db =
        callWebhookHandler provider payload db) ∧
      (∃ tr ob, (callWebhookHandler provider payload db).1.events =
        db.events ++ [Event.mk l.campaignId (some l.id) .CALL_RESULT
          (.callResult provider payload.callId payload.status tr ob)])) := by
  constructor
  · intro c hnone hc
    constructor
    · simp only [callWebhookHandler, hnone, hc, Option.isSome_none,
        Bool.false_and]
    · simp only [callWebhookHandler, hnone, hc, Option.isSome_none,
        Bool.false_and]
  · intro lid l hsome hlead
    constructor
    · intro x
      simp only [callWebhookHandler, hsome, hlead]
    · refine ⟨if (payload.transcript.getD "") == "" then none
        else some (payload.transcript.getD ""),
        if (payload.transcript.getD "").length > 0
        then hasOptOutIntent (payload.transcript.getD "") else false, ?_⟩
      simp only [callWebhookHandler, hsome, hlead]
      by_cases hoo : (if (payload.transcript.getD "").length > 0
          then hasOptOutIntent (payload.transcript.getD "") else false) = true
      · simp only [hoo, if_true]
      · simp only [Bool.not_eq_true] at hoo
        simp only [hoo, Bool.false_eq_true, if_false]

/-- Witness for `callWebhook_campaign_resolution`: a payload carrying
only a `campaignId` and an opt-out transcript records the event but
changes no lead. -/
theorem callWebhook_campaign_resolution_witness :
    callWebhookHandler "fake"
      ⟨none, some "C9", none, "answered", some "please unsubscribe me"⟩
      sysFresh.db =
      ({ sysFresh.db with
          events := [Event.mk "C9" none .CALL_RESULT
            (.callResult "fake" none "answered"
              (some "please unsubscribe me") true)] },
       .success "fake" false) := by
  have h := ((callWebhook_campaign_resolution "fake"
    ⟨none, some "C9", none, "answered", some "please unsubscribe me"⟩
    sysFresh.db).1 "C9" rfl rfl).1
  rw [h]
  rfl

/-! ## Scraper lead upsert (`src/workers/scraper.ts`) -/

/-- A listing returned by the listings provider. -/
structure ListingRecord where
  businessName : String
  websiteUrl : Option String
  phone : Option String
  email : Option String
  address : Option String
  sourceUrl : Option String
deriving DecidableEq, Repr

/-- Lookup through the `campaignId_websiteUrl` unique index. -/
def findByCampaignSite (leads : List Lead) (cid url : String) : Option Lead :=
  leads.find? (fun l => l.campaignId == cid && l.websiteUrl == some url)

/-- `upsertLeadFromListing` from `scraper.ts`: with a `websiteUrl`, an
upsert keyed on `(campaignId, websiteUrl)` whose update path resets the
contact fields and status of the matched row; without one, a plain
create.  `newId` models the database-generated id of a created row.
Returns the new table and the upserted lead. -/
def upsertLeadFromListing (newId campaignId : String)
    (listing : ListingRecord) (leads : List Lead) : List Lead × Lead :=
  match listing.websiteUrl with
  | some url =>
    let upd := fun (l : Lead) =>
      { l with
        businessName := some listing.businessName,
        phone := listing.phone,
        email := listing.email,
        address := listing.address,
        sourceUrl := listing.sourceUrl,
        status := LeadStatus.SCRAPED,
        lastError := none }
    match findByCampaignSite leads campaignId url with
    | some l0 =>
      (leads.map (fun l =>
        if l.campaignId == campaignId && l.websiteUrl == some url then upd l
        else l), upd l0)
    | none =>
      let newLead : Lead :=
        ⟨newId, campaignId, some listing.businessName, some url, listing.phone,
          listing.email, listing.address, listing.sourceUrl, none, none, [],
          .SCRAPED, false, 0, 0, none⟩
      (leads ++ [newLead], newLead)
  | none =>
    let newLead : Lead :=
      ⟨newId, campaignId, some listing.businessName, none, listing.phone,
        listing.email, listing.address, listing.sourceUrl, none, none, [],
        .SCRAPED, false, 0, 0, none⟩
    (leads ++ [newLead], newLead)

/-- The `Lead_campaignId_websiteUrl_key` unique index: no two rows share
a non-null `(campaignId, websiteUrl)` pair. -/
def UniqueCampaignSite (leads : List Lead) : Prop :=
  List.Pairwise (fun a b => ¬ (a.campaignId = b.campaignId ∧
    ∃ u, a.websiteUrl = some u ∧ b.websiteUrl = some u)) leads

theorem find?_map_congr {α : Type} (f : α → α) (p : α → Bool) (l : List α)
    (h : ∀ x, p (f x) = p x) :
    (l.map f).find? p = (l.find? p).map f := by
  induction l with
  | nil => rfl
  | cons x t ih =>
    by_cases hx : p x = true
    · simp [List.find?, h, hx]
    · have hx2 : p x = false := by simpa using hx
      simp [List.find?, h, hx2, ih]

/-- **C6.**  The upsert preserves the `(campaignId, websiteUrl)`
uniqueness invariant, and when a lead with the listing `websiteUrl`
already exists for the campaign, the upsert keeps the table size
unchanged (no second lead) and the existing row is found afterwards with
its fields and status reset to the fresh listing data. -/
theorem upsert_unique_and_updates (newId campaignId : String)
    (listing : ListingRecord) (leads : List Lead)
    (huniq : UniqueCampaignSite leads) :
    UniqueCampaignSite (upsertLeadFromListing newId campaignId listing leads).1 ∧
    (∀ url l0, listing.websiteUrl = some url →
      findByCampaignSite leads campaignId url = some l0 →
      (upsertLeadFromListing newId campaignId listing leads).1.length =
        leads.length ∧
      findByCampaignSite
          (upsertLeadFromListing newId campaignId listing leads).1
          campaignId url =
        some { l0 with
          businessName := some listing.businessName,
          phone := listing.phone,
          email := listing.email,
          address := listing.address,
          sourceUrl := listing.sourceUrl,
          status := LeadStatus.SCRAPED,
          lastError := none }) := by
  constructor
  · cases hurl : listing.websiteUrl with
    | none =>
      simp only [upsertLeadFromListing, hurl]
      rw [UniqueCampaignSite, List.pairwise_append]
      refine ⟨huniq, List.pairwise_singleton _ _, ?_⟩
      rintro a ha b hb ⟨-, u, -, habs⟩
      simp at hb
      rw [hb] at habs
      simp at habs
    | some url =>
      simp only [upsertLeadFromListing, hurl]
      cases hfind : findByCampaignSite leads campaignId url with
      | some l0 =>
        simp only [hfind]
        rw [UniqueCampaignSite, List.pairwise_map]
        refine huniq.imp ?_
        intro a b hab ⟨hcid, u, hau, hbu⟩
        apply hab
        constructor
        · by_cases hca : (a.campaignId == campaignId &&
              a.websiteUrl == some url) = true <;>
          by_cases hcb : (b.campaignId == campaignId &&
              b.websiteUrl == some url) = true <;>
          simp [hca, hcb] at hcid ⊢ <;> exact hcid
        · refine ⟨u, ?_, ?_⟩
          · by_cases hca : (a.campaignId == campaignId &&
                a.websiteUrl == some url) = true <;>
            simp [hca] at hau ⊢ <;> exact hau
          · by_cases hcb : (b.campaignId == campaignId &&
                b.websiteUrl == some url) = true <;>
            simp [hcb] at hbu ⊢ <;> exact hbu
      | none =>
        simp only [hfind]
        rw [UniqueCampaignSite, List.pairwise_append]
        refine ⟨huniq, List.pairwise_singleton _ _, ?_⟩
        rintro a ha b hb ⟨hcid, u, hau, hbu⟩
        simp only [List.mem_singleton] at hb
        rw [hb] at hcid hbu
        simp only at hcid hbu
        rw [findByCampaignSite, List.find?_eq_none] at hfind
        have := hfind a ha
        apply this
        rw [Bool.and_eq_true, beq_iff_eq, beq_iff_eq]
        have hu : u = url := by
          have := hbu
          simp at this
          exact this.symm
        exact ⟨hcid, by rw [hau, hu]⟩
  · intro url l0 hurl hfind
    simp only [upsertLeadFromListing, hurl, hfind]
    have hpres : ∀ l : Lead,
        ((if l.campaignId == campaignId && l.websiteUrl == some url then
          { l with
            businessName := some listing.businessName,
            phone := listing.phone,
            email := listing.email,
            address := listing.address,
            sourceUrl := listing.sourceUrl,
            status := LeadStatus.SCRAPED,
            lastError := none }
        else l).campaignId == campaignId &&
        (if l.campaignId == campaignId && l.websiteUrl == some url then
          { l with
            businessName := some listing.businessName,
            phone := listing.phone,
            email := listing.email,
            address := listing.address,
            sourceUrl := listing.sourceUrl,
            status := LeadStatus.SCRAPED,
            lastError := none }
        else l).websiteUrl == some url) =
        (l.campaignId == campaignId && l.websiteUrl == some url) := by
      intro l
      by_cases hc : (l.campaignId == campaignId &&
          l.websiteUrl == some url) = true <;> simp [hc]
    constructor
    · exact List.length_map leads _
    · rw [findByCampaignSite, find?_map_congr _ _ _ hpres]
      rw [findByCampaignSite] at hfind
      rw [hfind]
      have hc0 := List.find?_some hfind
      rw [Option.map_some']
      rw [if_pos hc0]

/-- Witness for `upsert_unique_and_updates`: re-scraping the sample
lead site updates in place, leaving a single row. -/
theorem upsert_unique_and_updates_witness :
    (upsertLeadFromListing "L2" "C1"
      ⟨"Acme Roofing 2", some "https://acme-roofing.example.org",
        some "+1-555-0102", none, none, none⟩ [sampleLead]).1.length = 1 := by
  have h := (upsert_unique_and_updates "L2" "C1"
    ⟨"Acme Roofing 2", some "https://acme-roofing.example.org",
      some "+1-555-0102", none, none, none⟩ [sampleLead]
    (by simp [UniqueCampaignSite])).2
    "https://acme-roofing.example.org" sampleLead rfl rfl
  exact h.1

/-! ## Site-generate, image-assign and deploy handlers
(`site-generator.ts`, the image worker, and the deployer).  File-system, zip and HTML work is unobservable by the
pipeline state and is modelled only through its outputs. -/

/-- Latest event of a type for `(campaignId, leadId)` — the embedding of
`findMany({..., orderBy: {createdAt: "desc"}, take: 1})` over an
append-ordered event list. -/
def latestEvent (events : List Event) (cid lid : String) (ty : EventType) :
    Option Event :=
  events.reverse.find? (fun e =>
    e.campaignId == cid && e.leadId == some lid && e.type == ty)

/-- `metadata.serviceKeywords` when present and an array (the enriched
metadata shapes carry one; every other shape yields `[]`). -/
def metaServiceKeywords : EventMeta → List String
  | .enrichedNoWebsite _ sk _ _ => sk
  | .enrichedData _ _ sk _ _ => sk
  | .enrichedError _ sk _ _ => sk
  | _ => []

/-- `metadata.zipPath` of a SITE_GENERATED event. -/
def metaZipPath : EventMeta → Option String
  | .siteGenerated zp _ => some zp
  | _ => none

/-- `sanitizeFileSegment` from `site-generator.ts`: keep
`[a-zA-Z0-9_-]`, truncate to 64. -/
def sanitizeFileSegment (value : String) : String :=
  String.mk ((value.data.filter (fun c =>
    c.isAlphanum || c = '_' || c = '-')).take 64)

/-- `processSiteJob` from `site-generator.ts`: reads the latest
LEAD_ENRICHED event for its services, generates the site bundle through
the fake OpenClaw client (writing `/tmp/{sanitized}.zip`), marks the
lead SITE_GENERATED and enqueues image assignment.  There is no status
precondition check. -/
def processSiteJob (leadId : String) (db : Db) : Db × Except String Unit :=
  match findLead db.leads leadId with
  | none => (db, .error ("Lead not found: " ++ leadId))
  | some lead =>
    match findCampaign db.campaigns lead.campaignId with
    | none => (db, .error ("Campaign not found: " ++ lead.campaignId))
    | some _campaign =>
      let services :=
        match latestEvent db.events lead.campaignId leadId .LEAD_ENRICHED with
        | some e => metaServiceKeywords e.metadata
        | none => []
      let zipPath := "/tmp/" ++ sanitizeFileSegment lead.id ++ ".zip"
      let summary := "Generated MVP static site bundle for " ++
        (lead.businessName.getD "Local Contractor")
      let _ := services
      let db1 := { db with
        leads := updateLead db.leads lead.id (fun l =>
          { l with status := .SITE_GENERATED, lastError := none }) }
      let db2 := { db1 with
        events := db1.events ++ [Event.mk lead.campaignId (some lead.id)
          .SITE_GENERATED (.siteGenerated zipPath summary)] }
      let db3 := { db2 with imageQueue := db2.imageQueue ++ [lead.id] }
      (db3, .ok ())

/-- `hashString` from the image worker: `(hash * 31 + code) >>> 0`. -/
def hashString (value : String) : Nat :=
  value.data.foldl (fun h c => (h * 31 + c.toNat) % 4294967296) 0

/-- The whitespace-run-to-dash normalisation inside
`FakeImageProvider.generate` (`replace(/\s+/g, "-")` after lowering). -/
def dashWsAux : List Char → Bool → List Char
  | [], _ => []
  | c :: t, inWs =>
    if c.isWhitespace then
      if inWs then dashWsAux t true else '-' :: dashWsAux t true
    else c :: dashWsAux t false

/-- `FakeImageProvider.generate`: a deterministic picsum URL derived
from the prompt; `encodeURIComponent` (a JS builtin) is an oracle. -/
def fakeImageGenerate (encode : String → String) (prompt : String)
    (w h : Nat) : String :=
  let normalizedPrompt := encode (String.mk (dashWsAux (lowerStr prompt).data false))
  "https://picsum.photos/seed/" ++ normalizedPrompt ++ "/" ++
    toString (w * 160) ++ "/" ++ toString (h * 160)

/-- The per-niche image pool. -/
structure ImagePool where
  heroImages : List String
  serviceImages : List String
deriving DecidableEq, Repr

/-- `getOrCreateImagePool`: 50 hero (16:9) and 100 service (4:3) images
from the fake provider.  The module-level memo cache is omitted: it
memoises this deterministic computation and is observationally
transparent. -/
def getOrCreateImagePool (encode : String → String) (niche style : String) :
    ImagePool :=
  { heroImages := (List.range 50).map (fun idx =>
      fakeImageGenerate encode (style ++ " " ++ niche ++ " hero " ++
        toString (idx + 1)) 16 9),
    serviceImages := (List.range 100).map (fun idx =>
      fakeImageGenerate encode (style ++ " " ++ niche ++ " service " ++
        toString (idx + 1)) 4 3) }

/-- `pickLeadImages`: a hero image and three service images selected by
the lead-id hash. -/
def pickLeadImages (leadId : String) (pool : ImagePool) :
    String × List String :=
  let seed := hashString leadId
  let heroImageUrl := pool.heroImages.getD (seed % pool.heroImages.length) ""
  let serviceImageUrls := (List.range 3).map (fun idx =>
    pool.serviceImages.getD ((seed + idx * 13) % pool.serviceImages.length) "")
  (heroImageUrl, serviceImageUrls)

/-- `processImageJob` from the image worker: assigns pool images, marks
the lead IMAGES_READY and enqueues deploy.  There is no status
precondition check. -/
def processImageJob (encode : String → String) (leadId : String) (db : Db) :
    Db × Except String Unit :=
  match findLead db.leads leadId with
  | none => (db, .error ("Lead not found: " ++ leadId))
  | some lead =>
    match findCampaign db.campaigns lead.campaignId with
    | none => (db, .error ("Campaign not found: " ++ lead.campaignId))
    | some campaign =>
      let style := "clean-local"
      let pool := getOrCreateImagePool encode campaign.niche style
      let picked := pickLeadImages lead.id pool
      let db1 := { db with
        leads := updateLead db.leads lead.id (fun l =>
          { l with
            heroImageUrl := some picked.1,
            serviceImageUrls := picked.2,
            status := .IMAGES_READY,
            lastError := none }) }
      let db2 := { db1 with
        events := db1.events ++ [Event.mk lead.campaignId (some lead.id)
          .IMAGES_READY (.imagesReady style picked.1 picked.2.length)] }
      let db3 := { db2 with deployQueue := db2.deployQueue ++ [lead.id] }
      (db3, .ok ())

/-- `sanitizeSlug` from the deployer: lowercase, map `[^a-z0-9-]` to
dashes, collapse dash runs, trim dashes, truncate to 48. -/
def collapseDashAux : List Char → Bool → List Char
  | [], _ => []
  | c :: t, inDash =>
    if c = '-' then
      if inDash then collapseDashAux t true
      else '-' :: collapseDashAux t true
    else c :: collapseDashAux t false

def sanitizeSlug (value : String) : String :=
  let mapped := (lowerStr value).data.map (fun c =>
    if c.isLower || c.isDigit || c = '-' then c else '-')
  let collapsed := collapseDashAux mapped false
  let trimmed := ((collapsed.dropWhile (fun c => c = '-')).reverse.dropWhile
    (fun c => c = '-')).reverse
  String.mk (trimmed.take 48)

/-- `processDeployJob` from the deployer: requires IMAGES_READY (the one
hard status precondition in the pipeline), reads the SITE_GENERATED
bundle path, injects image URLs (file/zip work modelled by the `inject`
oracle, whose `.error` is a thrown exception such as the missing
`index.html`), deploys through the fake local provider and enqueues
Email step 1. -/
def processDeployJob (inject : String → Option String → List String →
    Except String String) (leadId : String) (db : Db) :
    Db × Except String Unit :=
  match findLead db.leads leadId with
  | none => (db, .error ("Lead not found: " ++ leadId))
  | some lead =>
    if lead.status ≠ LeadStatus.IMAGES_READY then
      (db, .error ("Lead " ++ leadId ++ " must be IMAGES_READY before deploy (current=" ++
        statusName lead.status ++ ")"))
    else
      match (latestEvent db.events lead.campaignId leadId
          .SITE_GENERATED).bind (fun e => metaZipPath e.metadata) with
      | none => (db, .error ("No generated site bundle found for lead " ++ leadId))
      | some zipPath =>
        match inject zipPath lead.heroImageUrl lead.serviceImageUrls with
        | .error e => (db, .error e)
        | .ok injectedZipPath =>
          let _ := injectedZipPath
          let url := "http://localhost:3000/demo/" ++ sanitizeSlug lead.id
          let db1 := { db with
            leads := updateLead db.leads lead.id (fun l =>
              { l with
                demoUrl := some url, status := .DEPLOYED, lastError := none }) }
          let db2 := { db1 with
            events := db1.events ++ [Event.mk lead.campaignId (some lead.id)
              .DEPLOYED (.deployed url)] }
          let db3 := { db2 with
            emailQueue := db2.emailQueue ++ [QueuedEmail.mk lead.id 1] }
          (db3, .ok ())

/-- A sample campaign owning the sample lead. -/
def sampleCampaign : Campaign := ⟨"C1", "roofers", "Dallas", 5⟩

/-- A database whose only lead is still NEW. -/
def dbNewLead : Db :=
  { emptyDb with
    leads := [{ sampleLead with status := .NEW }],
    campaigns := [sampleCampaign] }

/-- **C4 (counterexample).**  Site-Generate and Image-Assign do not
reject a lead whose status is not the expected predecessor: on a lead
still in status NEW both handlers run to completion and report job
success instead of throwing. -/
theorem stage_precondition_counterexample :
    (processSiteJob "L1" dbNewLead).2 = .ok () ∧
    (processImageJob (fun s => s) "L1" dbNewLead).2 = .ok () := by
  exact ⟨rfl, rfl⟩

/-- **C4 (amended).**  Only Deploy enforces a status precondition: it
throws a hard error naming the current status whenever the lead is not
IMAGES_READY, while Site-Generate and Image-Assign perform no status
check at all and succeed for a lead in any status (given the lead and
its campaign exist). -/
theorem stage_status_preconditions
    (inject : String → Option String → List String → Except String String)
    (encode : String → String) (leadId : String) (db : Db) (lead : Lead)
    (hfind : findLead db.leads leadId = some lead) :
    (lead.status ≠ LeadStatus.IMAGES_READY →
      processDeployJob inject leadId db =
        (db, .error ("Lead " ++ leadId ++
          " must be IMAGES_READY before deploy (current=" ++
          statusName lead.status ++ ")"))) ∧
    (∀ campaign, findCampaign db.campaigns lead.campaignId = some campaign →
      (processSiteJob leadId db).2 = .ok () ∧
      (processImageJob encode leadId db).2 = .ok ()) := by
  constructor
  · intro hne
    simp only [processDeployJob, hfind, if_pos hne]
  · intro campaign hcamp
    constructor
    · simp only [processSiteJob, hfind, hcamp]
    · simp only [processImageJob, hfind, hcamp]

/-- Witness for `stage_status_preconditions`: deploying the NEW sample
lead raises the hard precondition error. -/
theorem stage_status_preconditions_witness :
    processDeployJob (fun zp _ _ => .ok zp) "L1" dbNewLead =
      (dbNewLead, .error
        "Lead L1 must be IMAGES_READY before deploy (current=NEW)") := by
  have h := (stage_status_preconditions (fun zp _ _ => .ok zp)
    (fun s => s) "L1" dbNewLead { sampleLead with status := .NEW }
    rfl).1 (by decide)
  rw [h]
  rfl

/-! ## Enricher (`src/workers/enricher.ts`, the idempotent-pipeline
variant).  HTTP fetching, URL resolution, cheerio heading extraction and
the phone/email regexes are external collaborators, modelled as an
oracle record; the keyword/claim filtering, the crawl control flow and
the handler branching are embedded from the source. -/

/-- A fetched page (`safeFetchHtml` result). -/
structure PageResult where
  url : String
  html : String
  text : String
deriving DecidableEq, Repr

/-- The extraction summary produced by `crawlLeadWebsite`. -/
structure ExtractionSummary where
  phone : Option String
  email : Option String
  serviceKeywords : List String
  claims : List String
  pagesVisited : List String
deriving DecidableEq, Repr

/-- The external collaborators of the enricher.  `toAbsolute` models
`toAbsoluteUrl` (its `.error` is the `new URL` TypeError on an
unparsable base); `fetchHtml` models `safeFetchHtml`, returning the
`(html, text)` pair or `none` for any non-ok, non-HTML, timed-out or
failed fetch (it never throws); `headingsOf` models the cheerio query
`h1, h2, h3, nav a` over one page; `guessPhone`/`guessEmail` model the
`bestGuessPhone`/`bestGuessEmail` regex matches. -/
structure EnrichOracle where
  toAbsolute : String → String → Except String String
  fetchHtml : String → Option (String × String)
  headingsOf : String → List String
  guessPhone : String → Option String
  guessEmail : String → Option String

/-- `withHttpProtocol`: prepend `https://` unless the URL already starts
with `http://` or `https://` (case-insensitively). -/
def withHttpProtocol (url : String) : String :=
  if ("http://".data.isPrefixOf (lowerStr url).data ||
      "https://".data.isPrefixOf (lowerStr url).data) then url
  else "https://" ++ url

/-- Whitespace split (`split(/\s+/)` composed with dropping empties, as
used after the collapse-and-trim normalisation). -/
def splitWs (s : String) : List String :=
  (s.split Char.isWhitespace).filter (fun w => w ≠ "")

/-- `.replace(/\s+/g, " ").trim().toLowerCase()` applied to a heading. -/
def normalizeHeading (s : String) : String :=
  lowerStr (String.intercalate " " (splitWs s))

/-- Characters kept by the keyword-cleaning replace: lowercase letters, digits, whitespace, ampersand, slash, dash. -/
def keepKeywordChar (c : Char) : Bool :=
  c.isLower || c.isDigit || c.isWhitespace || c = '&' || c = '/' || c = '-'

/-- Drop leading and trailing whitespace (`String.prototype.trim`). -/
def trimWs (l : List Char) : List Char :=
  ((l.dropWhile Char.isWhitespace).reverse.dropWhile Char.isWhitespace).reverse

/-- The stop-word set of `extractServiceKeywords`. -/
def stopWords : List String :=
  ["home", "about", "contact", "services", "service", "blog", "gallery",
    "testimonials", "reviews", "quote", "free quote"]

/-- `extractServiceKeywords`: normalise each heading of each page,
filter, deduplicate in insertion order, keep at most 8. -/
def extractServiceKeywords (headingsOf : String → List String)
    (htmlList : List String) : List String :=
  let step := fun (acc : List String) (rawHeading : String) =>
    let raw := normalizeHeading rawHeading
    if raw = "" then acc
    else
      let cleaned := String.mk (trimWs (raw.data.filter keepKeywordChar))
      if cleaned = "" then acc
      else if (splitWs cleaned).length > 5 then acc
      else if stopWords.contains cleaned then acc
      else if cleaned.length < 3 then acc
      else if acc.contains cleaned then acc
      else acc ++ [cleaned]
  ((htmlList.flatMap headingsOf).foldl step []).take 8

/-- `extractClaims`: fixed substring probes over the lowered text. -/
def extractClaims (text : String) : List String :=
  let lowered := lowerStr text
  (if includesStr lowered "licensed" then ["licensed"] else []) ++
  (if includesStr lowered "insured" then ["insured"] else []) ++
  (if includesStr lowered "free estimate" ||
      includesStr lowered "free estimates" then ["free estimates"] else [])

/-- `crawlLeadWebsite`: fetch the landing page plus `/services` and
`/contact`, then extract.  A `toAbsoluteUrl` failure propagates (the
catch in the caller handles it); failed fetches are simply skipped. -/
def crawlLeadWebsite (o : EnrichOracle) (websiteUrl : String) :
    Except String ExtractionSummary :=
  let normalizedBaseUrl := withHttpProtocol websiteUrl
  match o.toAbsolute normalizedBaseUrl "/services" with
  | .error e => .error e
  | .ok servicesUrl =>
    match o.toAbsolute normalizedBaseUrl "/contact" with
    | .error e => .error e
    | .ok contactUrl =>
      let pageUrls := [normalizedBaseUrl, servicesUrl, contactUrl]
      let pages := pageUrls.filterMap (fun u =>
        (o.fetchHtml u).map (fun p => PageResult.mk u p.1 p.2))
      let combinedText := String.intercalate " " (pages.map (fun p => p.text))
      .ok
        { phone := o.guessPhone combinedText,
          email := o.guessEmail combinedText,
          serviceKeywords := extractServiceKeywords o.headingsOf
            (pages.map (fun p => p.html)),
          claims := extractClaims combinedText,
          pagesVisited := pages.map (fun p => p.url) }

/-- `processEnrichJob` from `enricher.ts` (idempotent-pipeline variant):
missing lead throws; opted-out lead skips; missing website degrades with
`lastError = "no website"`; a successful crawl updates contact fields
(`extracted ?? lead` fallback) and flags an empty crawl; a crawl
exception degrades with the error text — every non-skip path ends
ENRICHED, records LEAD_ENRICHED and enqueues Site-Generate. -/
def processEnrichJob (o : EnrichOracle) (leadId : String) (db : Db) :
    Db × Except String Unit :=
  match findLead db.leads leadId with
  | none => (db, .error ("Lead not found: " ++ leadId))
  | some lead =>
    let campaignId := lead.campaignId
    if lead.doNotContact then (db, .ok ()) else
    match lead.websiteUrl with
    | none =>
      let db1 := { db with
        leads := updateLead db.leads leadId (fun l =>
          { l with status := .ENRICHED, lastError := some "no website" }) }
      let db2 := { db1 with
        events := db1.events ++ [Event.mk campaignId (some leadId)
          .LEAD_ENRICHED (.enrichedNoWebsite "no website" [] [] [])] }
      let db3 := { db2 with siteQueue := db2.siteQueue ++ [leadId] }
      (db3, .ok ())
    | some websiteUrl =>
      match crawlLeadWebsite o websiteUrl with
      | .ok extracted =>
        let phone := match extracted.phone with
          | some p => some p
          | none => lead.phone
        let email := match extracted.email with
          | some m => some m
          | none => lead.email
        let db1 := { db with
          leads := updateLead db.leads leadId (fun l =>
            { l with
              phone := phone,
              email := email,
              status := .ENRICHED,
              lastError := if extracted.pagesVisited.length > 0 then none
                else some "crawl yielded no html pages" }) }
        let db2 := { db1 with
          events := db1.events ++ [Event.mk campaignId (some leadId)
            .LEAD_ENRICHED (.enrichedData phone email
              extracted.serviceKeywords extracted.claims
              extracted.pagesVisited)] }
        let db3 := { db2 with siteQueue := db2.siteQueue ++ [leadId] }
        (db3, .ok ())
      | .error e =>
        let db1 := { db with
          leads := updateLead db.leads leadId (fun l =>
            { l with status := .ENRICHED, lastError := some e }) }
        let db2 := { db1 with
          events := db1.events ++ [Event.mk campaignId (some leadId)
            .LEAD_ENRICHED (.enrichedError e [] [] [])] }
        let db3 := { db2 with siteQueue := db2.siteQueue ++ [leadId] }
        (db3, .ok ())

/-- **C9.**  On an existing, contactable lead the Enrich handler never
throws: for every oracle behaviour it reports job success, sets the lead
to ENRICHED, records one LEAD_ENRICHED event and enqueues Site-Generate;
and in each degraded case — no website, every page fetch failing, or the
crawl throwing — `lastError` carries the diagnostic and the event has
empty `serviceKeywords`/`claims`. -/
theorem enrich_never_throws (o : EnrichOracle) (leadId : String) (db : Db)
    (lead : Lead)
    (hfind : findLead db.leads leadId = some lead)
    (hdnc : lead.doNotContact = false)
    (hp0 : o.guessPhone "" = none)
    (he0 : o.guessEmail "" = none) :
    ((processEnrichJob o leadId db).2 = .ok () ∧
     (processEnrichJob o leadId db).1.siteQueue = db.siteQueue ++ [leadId] ∧
     (∃ m, (processEnrichJob o leadId db).1.events =
        db.events ++ [Event.mk lead.campaignId (some leadId)
          .LEAD_ENRICHED m]) ∧
     (∃ l2, findLead (processEnrichJob o leadId db).1.leads leadId = some l2 ∧
        l2.status = .ENRICHED)) ∧
    (lead.websiteUrl = none →
      findLead (processEnrichJob o leadId db).1.leads leadId =
        some { lead with status := .ENRICHED, lastError := some "no website" } ∧
      (processEnrichJob o leadId db).1.events = db.events ++
        [Event.mk lead.campaignId (some leadId) .LEAD_ENRICHED
          (.enrichedNoWebsite "no website" [] [] [])]) ∧
    (∀ u su cu, lead.websiteUrl = some u →
      o.toAbsolute (withHttpProtocol u) "/services" = .ok su →
      o.toAbsolute (withHttpProtocol u) "/contact" = .ok cu →
      o.fetchHtml (withHttpProtocol u) = none →
      o.fetchHtml su = none →
      o.fetchHtml cu = none →
      findLead (processEnrichJob o leadId db).1.leads leadId =
        some { lead with
          status := .ENRICHED,
          lastError := some "crawl yielded no html pages" } ∧
      (processEnrichJob o leadId db).1.events = db.events ++
        [Event.mk lead.campaignId (some leadId) .LEAD_ENRICHED
          (.enrichedData lead.phone lead.email [] [] [])]) ∧
    (∀ u e, lead.websiteUrl = some u →
      crawlLeadWebsite o u = .error e →
      findLead (processEnrichJob o leadId db).1.leads leadId =
        some { lead with status := .ENRICHED, lastError := some e } ∧
      (processEnrichJob o leadId db).1.events = db.events ++
        [Event.mk lead.campaignId (some leadId) .LEAD_ENRICHED
          (.enrichedError e [] [] [])]) := by
  have hupd : ∀ f : Lead → Lead, (∀ l, (f l).id = l.id) →
      findLead (updateLead db.leads leadId f) leadId = some (f lead) := by
    intro f hpres
    rw [findLead_updateLead _ _ _ hpres, hfind, Option.map_some']
  refine ⟨?_, ?_, ?_, ?_⟩
  · cases hweb : lead.websiteUrl with
    | none =>
      simp only [processEnrichJob, hfind, hdnc, Bool.false_eq_true, if_false,
        hweb]
      exact ⟨by trivial, by trivial, ⟨_, by trivial⟩,
        ⟨_, hupd (fun l => { l with
          status := .ENRICHED, lastError := some "no website" })
          (fun l => rfl), rfl⟩⟩
    | some u =>
      cases hcr : crawlLeadWebsite o u with
      | ok ex =>
        simp only [processEnrichJob, hfind, hdnc, Bool.false_eq_true,
          if_false, hweb, hcr]
        exact ⟨by trivial, by trivial, ⟨_, by trivial⟩,
          ⟨_, hupd (fun l => { l with
            phone := (match ex.phone with
              | some p => some p
              | none => lead.phone),
            email := (match ex.email with
              | some m => some m
              | none => lead.email),
            status := .ENRICHED,
            lastError := if ex.pagesVisited.length > 0 then none
              else some "crawl yielded no html pages" })
            (fun l => rfl), rfl⟩⟩
      | error e =>
        simp only [processEnrichJob, hfind, hdnc, Bool.false_eq_true,
          if_false, hweb, hcr]
        exact ⟨by trivial, by trivial, ⟨_, by trivial⟩,
          ⟨_, hupd (fun l => { l with
            status := .ENRICHED, lastError := some e })
            (fun l => rfl), rfl⟩⟩
  · intro hweb
    simp only [processEnrichJob, hfind, hdnc, Bool.false_eq_true, if_false,
      hweb]
    constructor
    · rw [findLead_updateLead _ _ _ (by intro l; rfl), hfind,
        Option.map_some']
      simp [hweb, hdnc]
    · trivial
  · intro u su cu hweb hsu hcu hfu hfsu hfcu
    have hcrawl : crawlLeadWebsite o u =
        .ok ⟨o.guessPhone "", o.guessEmail "", [], [], []⟩ := by
      simp only [crawlLeadWebsite, hsu, hcu, List.filterMap_cons, hfu, hfsu,
        hfcu, List.filterMap_nil, Option.map_none]
      rfl
    simp only [processEnrichJob, hfind, hdnc, Bool.false_eq_true, if_false,
      hweb, hcrawl, hp0, he0]
    constructor
    · rw [findLead_updateLead _ _ _ (by intro l; rfl), hfind,
        Option.map_some']
      simp [hweb, hdnc]
    · trivial
  · intro u e hweb hcr
    simp only [processEnrichJob, hfind, hdnc, Bool.false_eq_true, if_false,
      hweb, hcr]
    constructor
    · rw [findLead_updateLead _ _ _ (by intro l; rfl), hfind,
        Option.map_some']
      simp [hweb, hdnc]
    · trivial

/-- An oracle on which every fetch fails and every extraction is empty. -/
def nullEnrichOracle : EnrichOracle :=
  { toAbsolute := fun base path => .ok (base ++ path),
    fetchHtml := fun _ => none,
    headingsOf := fun _ => [],
    guessPhone := fun _ => none,
    guessEmail := fun _ => none }

/-- Witness for `enrich_never_throws`: with every fetch failing, the
sample lead still ends ENRICHED with the crawl diagnostic recorded. -/
theorem enrich_never_throws_witness :
    findLead (processEnrichJob nullEnrichOracle "L1" sysFresh.db).1.leads
        "L1" =
      some { sampleLead with
        status := .ENRICHED,
        lastError := some "crawl yielded no html pages" } := by
  have h := (enrich_never_throws nullEnrichOracle "L1" sysFresh.db sampleLead
    rfl rfl rfl rfl).2.2.1 "https://acme-roofing.example.org"
    "https://acme-roofing.example.org/services"
    "https://acme-roofing.example.org/contact"
    rfl (by rfl) (by rfl) rfl rfl rfl
  exact h.1

/-! ## Status writes of the stage handlers (for the monotonicity claim) -/

theorem mem_updateLead_status (leads : List Lead) (key : String)
    (f : Lead → Lead) (st : LeadStatus) (hf : ∀ l, (f l).status = st)
    (l' : Lead) (h : l' ∈ updateLead leads key f) :
    l' ∈ leads ∨ l'.status = st := by
  rcases List.mem_map.mp h with ⟨l, hl, heq⟩
  by_cases hk : (l.id == key) = true
  · right
    rw [if_pos hk] at heq
    rw [← heq]
    exact hf l
  · left
    rw [if_neg hk] at heq
    rw [← heq]
    exact hl

theorem runIdempotentStage_state_cases {σ α : Type}
    (store : List (IdemRow α)) (key stage campaignId leadId : String)
    (run : σ → σ × Except String α) (s : σ) :
    (runIdempotentStage store key stage campaignId leadId run s).state = s ∨
    (runIdempotentStage store key stage campaignId leadId run s).state =
      (run s).1 := by
  unfold runIdempotentStage
  cases hf : findRow store key with
  | some row =>
    cases hres : row.result <;> simp [hres]
  | none =>
    cases hr : run s with
    | mk s1 r =>
      cases r <;> right <;> simp [hr]

theorem processEmailJob_status_writes (m : Nat → String) (j : EmailJobData)
    (sys : Sys) (l' : Lead)
    (h : l' ∈ (processEmailJob m j sys).1.db.leads) :
    l' ∈ sys.db.leads ∨ l'.status = LeadStatus.EMAILED_1 := by
  unfold processEmailJob at h
  split at h
  · exact .inl h
  · split at h
    · exact .inl h
    · split at h
      · exact .inl h
      · split at h
        · exact .inl h
        · split at h
          · exact .inl h
          · simp only [] at h
            split at h
            · dsimp only at h
              rcases runIdempotentStage_state_cases _ _ _ _ _ _ _ with hs | hs
              · rw [hs] at h
                exact .inl h
              · rw [hs] at h
                dsimp only at h
                refine mem_updateLead_status _ _ _ _ ?_ l' h
                intro l
                rfl
            · dsimp only at h
              rcases runIdempotentStage_state_cases _ _ _ _ _ _ _ with hs | hs
              · rw [hs] at h
                exact .inl h
              · rw [hs] at h
                dsimp only at h
                refine mem_updateLead_status _ _ _ _ ?_ l' h
                intro l
                rfl

theorem processCallJob_status_writes (c : Nat → String) (cb : String)
    (j : CallJobData) (sys : Sys) (l' : Lead)
    (h : l' ∈ (processCallJob c cb j sys).1.db.leads) :
    l' ∈ sys.db.leads ∨ l'.status = LeadStatus.CALLED_1 := by
  unfold processCallJob at h
  split at h
  · exact .inl h
  · split at h
    · exact .inl h
    · split at h
      · exact .inl h
      · split at h
        · exact .inl h
        · simp only [] at h
          split at h
          · dsimp only at h
            rcases runIdempotentStage_state_cases _ _ _ _ _ _ _ with hs | hs
            · rw [hs] at h
              exact .inl h
            · rw [hs] at h
              dsimp only at h
              refine mem_updateLead_status _ _ _ _ ?_ l' h
              intro l
              rfl
          · dsimp only at h
            rcases runIdempotentStage_state_cases _ _ _ _ _ _ _ with hs | hs
            · rw [hs] at h
              exact .inl h
            · rw [hs] at h
              dsimp only at h
              refine mem_updateLead_status _ _ _ _ ?_ l' h
              intro l
              rfl

theorem processEnrichJob_status_writes (o : EnrichOracle) (leadId : String)
    (db : Db) (l' : Lead)
    (h : l' ∈ (processEnrichJob o leadId db).1.leads) :
    l' ∈ db.leads ∨ l'.status = LeadStatus.ENRICHED := by
  unfold processEnrichJob at h
  split at h
  · exact .inl h
  · split at h
    · exact .inl h
    · split at h
      · dsimp only at h
        refine mem_updateLead_status _ _ _ _ ?_ l' h
        intro l
        rfl
      · split at h
        · dsimp only at h
          refine mem_updateLead_status _ _ _ _ ?_ l' h
          intro l
          rfl
        · dsimp only at h
          refine mem_updateLead_status _ _ _ _ ?_ l' h
          intro l
          rfl

theorem processSiteJob_status_writes (leadId : String) (db : Db) (l' : Lead)
    (h : l' ∈ (processSiteJob leadId db).1.leads) :
    l' ∈ db.leads ∨ l'.status = LeadStatus.SITE_GENERATED := by
  unfold processSiteJob at h
  split at h
  · exact .inl h
  · split at h
    · exact .inl h
    · dsimp only at h
      refine mem_updateLead_status _ _ _ _ ?_ l' h
      intro l
      rfl

theorem processImageJob_status_writes (encode : String → String)
    (leadId : String) (db : Db) (l' : Lead)
    (h : l' ∈ (processImageJob encode leadId db).1.leads) :
    l' ∈ db.leads ∨ l'.status = LeadStatus.IMAGES_READY := by
  unfold processImageJob at h
  split at h
  · exact .inl h
  · split at h
    · exact .inl h
    · dsimp only at h
      refine mem_updateLead_status _ _ _ _ ?_ l' h
      intro l
      rfl

theorem processDeployJob_status_writes
    (inject : String → Option String → List String → Except String String)
    (leadId : String) (db : Db) (l' : Lead)
    (h : l' ∈ (processDeployJob inject leadId db).1.leads) :
    l' ∈ db.leads ∨ l'.status = LeadStatus.DEPLOYED := by
  unfold processDeployJob at h
  split at h
  · exact .inl h
  · split at h
    · exact .inl h
    · split at h
      · exact .inl h
      · split at h
        · exact .inl h
        · dsimp only at h
          refine mem_updateLead_status _ _ _ _ ?_ l' h
          intro l
          rfl

theorem upsertLeadFromListing_status_writes (newId campaignId : String)
    (listing : ListingRecord) (leads : List Lead) (l' : Lead)
    (h : l' ∈ (upsertLeadFromListing newId campaignId listing leads).1) :
    l' ∈ leads ∨ l'.status = LeadStatus.SCRAPED := by
  unfold upsertLeadFromListing at h
  split at h
  · split at h
    · dsimp only at h
      rcases List.mem_map.mp h with ⟨l, hl, heq⟩
      split at heq
      · right
        rw [← heq]
      · left
        rw [← heq]
        exact hl
    · rcases List.mem_append.mp h with hl | hl
      · exact .inl hl
      · right
        rw [List.mem_singleton.mp hl]
  · rcases List.mem_append.mp h with hl | hl
    · exact .inl hl
    · right
      rw [List.mem_singleton.mp hl]

theorem callWebhookHandler_status_writes (provider : String)
    (payload : WebhookPayload) (db : Db) (l' : Lead)
    (h : l' ∈ (callWebhookHandler provider payload db).1.leads) :
    l' ∈ db.leads ∨ l'.status = LeadStatus.DO_NOT_CONTACT := by
  unfold callWebhookHandler at h
  cases hlid : payload.leadId with
  | none =>
    simp only [hlid] at h
    cases hc : payload.campaignId with
    | none =>
      simp only [hc] at h
      exact .inl h
    | some c =>
      simp only [hc] at h
      exact .inl h
  | some lid =>
    simp only [hlid] at h
    cases hfind : findLead db.leads lid with
    | none =>
      simp only [hfind] at h
      exact .inl h
    | some l =>
      simp only [hfind] at h
      by_cases hoo : (if (payload.transcript.getD "").length > 0 then
          hasOptOutIntent (payload.transcript.getD "") else false) = true
      · simp only [hoo, if_true] at h
        refine mem_updateLead_status _ _ _ _ ?_ l' h
        intro x
        rfl
      · simp only [Bool.not_eq_true] at hoo
        simp only [hoo, Bool.false_eq_true, if_false] at h
        exact .inl h

/-- A lead that has already been called once. -/
def leadCalled : Lead :=
  { sampleLead with
    status := .CALLED_1, emailSentCount := 1, callAttempts := 1 }

/-- A system holding only `leadCalled`, with an empty idempotency store. -/
def sysCalled : Sys := ⟨{ emptyDb with leads := [leadCalled] }, []⟩

/-- **C3 (counterexample).**  The status sequence is not non-decreasing:
delivering an Email step-2 job to a lead currently in CALLED_1 (rank 7)
succeeds and rewrites its status to EMAILED_1 (rank 6) — a stage handler
writes a status strictly earlier in the order than the current status of the lead. -/
theorem status_monotonicity_counterexample :
    statusRank LeadStatus.EMAILED_1 < statusRank LeadStatus.CALLED_1 ∧
    findLead sysCalled.db.leads "L1" = some leadCalled ∧
    leadCalled.status = LeadStatus.CALLED_1 ∧
    (processEmailJob (fun n => "msg-" ++ toString n) ⟨"L1", 2⟩ sysCalled).2 =
      .ok () ∧
    findLead (processEmailJob (fun n => "msg-" ++ toString n) ⟨"L1", 2⟩
        sysCalled).1.db.leads "L1" =
      some { leadCalled with
        emailSentCount := 2, status := .EMAILED_1, lastError := none } := by
  refine ⟨by decide, rfl, rfl, rfl, rfl⟩

/-- **C3 (amended).**  Every status value a stage handler writes is that
fixed stage status of the handler — SCRAPED for the scrape upsert, ENRICHED,
SITE_GENERATED, IMAGES_READY, DEPLOYED, EMAILED_1, CALLED_1 for the
pipeline stages, DO_NOT_CONTACT for the webhook opt-out: after any
handler run, every lead row is either untouched or carries the fixed
stage status of that handler.  No handler compares against the current status before
writing, so an out-of-order or re-scraped delivery may move the status
of a lead backwards (as the counterexample shows); the only absorbing
behaviour is the `doNotContact` flag, not the status order. -/
theorem handler_status_writes :
    (∀ (m : Nat → String) (j : EmailJobData) (sys : Sys) (l' : Lead),
      l' ∈ (processEmailJob m j sys).1.db.leads →
      l' ∈ sys.db.leads ∨ l'.status = LeadStatus.EMAILED_1) ∧
    (∀ (c : Nat → String) (cb : String) (j : CallJobData) (sys : Sys)
      (l' : Lead), l' ∈ (processCallJob c cb j sys).1.db.leads →
      l' ∈ sys.db.leads ∨ l'.status = LeadStatus.CALLED_1) ∧
    (∀ (o : EnrichOracle) (leadId : String) (db : Db) (l' : Lead),
      l' ∈ (processEnrichJob o leadId db).1.leads →
      l' ∈ db.leads ∨ l'.status = LeadStatus.ENRICHED) ∧
    (∀ (leadId : String) (db : Db) (l' : Lead),
      l' ∈ (processSiteJob leadId db).1.leads →
      l' ∈ db.leads ∨ l'.status = LeadStatus.SITE_GENERATED) ∧
    (∀ (encode : String → String) (leadId : String) (db : Db) (l' : Lead),
      l' ∈ (processImageJob encode leadId db).1.leads →
      l' ∈ db.leads ∨ l'.status = LeadStatus.IMAGES_READY) ∧
    (∀ (inject : String → Option String → List String → Except String String)
      (leadId : String) (db : Db) (l' : Lead),
      l' ∈ (processDeployJob inject leadId db).1.leads →
      l' ∈ db.leads ∨ l'.status = LeadStatus.DEPLOYED) ∧
    (∀ (newId campaignId : String) (listing : ListingRecord)
      (leads : List Lead) (l' : Lead),
      l' ∈ (upsertLeadFromListing newId campaignId listing leads).1 →
      l' ∈ leads ∨ l'.status = LeadStatus.SCRAPED) ∧
    (∀ (provider : String) (payload : WebhookPayload) (db : Db) (l' : Lead),
      l' ∈ (callWebhookHandler provider payload db).1.leads →
      l' ∈ db.leads ∨ l'.status = LeadStatus.DO_NOT_CONTACT) :=
  ⟨processEmailJob_status_writes, processCallJob_status_writes,
    processEnrichJob_status_writes, processSiteJob_status_writes,
    processImageJob_status_writes, processDeployJob_status_writes,
    upsertLeadFromListing_status_writes, callWebhookHandler_status_writes⟩

/-- Witness for `handler_status_writes`: the lead left behind by a
concrete email run carries the fixed EMAILED_1 status. -/
theorem handler_status_writes_witness :
    ({ sampleLead with
        emailSentCount := 1, status := .EMAILED_1, lastError := none } : Lead)
      ∈ sysFresh.db.leads ∨
    ({ sampleLead with
        emailSentCount := 1, status := .EMAILED_1, lastError := none } : Lead).status
      = LeadStatus.EMAILED_1 :=
  handler_status_writes.1 (fun n => "msg-" ++ toString n) ⟨"L1", 1⟩ sysFresh
    { sampleLead with
      emailSentCount := 1, status := .EMAILED_1, lastError := none }
    (by decide)

end Outreach
